import Mathlib

/-!
Shallow embedding of two view components of the polkadot-apps fragment:

* `src/unnamed/part_000` — the extrinsic/call display adapter: the constants
  `BALANCE_CALLS` and `BALANCE_OVERRIDE`, the helpers `isExtrinsic` and
  `getRawSignature`, the pure derivation `extractState`, and the render
  function `Call` (its settled output after the effect has run).
* `src/packages/page-ranked/src/Members.tsx` — the members table adapter.

Opaque upstream objects (codec values, hashes, signature values, the raw
multi-signature envelope) are embedded as records exposing exactly the
observations the code makes of them (string rendering, hex rendering, the
Enum check and variant tag). JavaScript string truthiness is modelled as
non-emptiness; optional values as `Option`.
-/

namespace PolkadotApps

/-- Modelled from the spec: the localization capability (useTranslation)
translates by literal key; modelled as the identity on the key string. -/
def t (s : String) : String := s

/-- An upstream text value as observed by the code: only its toString. -/
structure Text where
  toString : String
deriving DecidableEq

/-- An opaque decoded codec argument value; the code only carries it. -/
structure Codec where
  raw : String
deriving DecidableEq

/-- A content hash as observed by the code: only its hex rendering. -/
structure Hash where
  toHex : String
deriving DecidableEq

/-- A signature value as observed by the code: only its hex rendering. -/
structure SigValue where
  toHex : String
deriving DecidableEq

/-- The raw multi-signature envelope reached through the internal field
(value._raw?.signature?.multiSignature): whether it is an Enum
(tagged-variant) value, and its variant tag (raw.type) when it is. -/
structure RawSig where
  isEnum : Bool
  enumType : String
deriving DecidableEq

/-- One entry of value.meta.args: an argument name and type. -/
structure ArgMeta where
  name : Text
  type : Text
deriving DecidableEq

/-- A decoded call (IMethod) or extrinsic (IExtrinsic) as observed by the
code. The signature field is the truthy signature accessor when present
(objects are truthy in JavaScript); a plain call has none.
rawMultiSignature is the optional-chained internal envelope. -/
structure CallValue where
  metaArgs : List ArgMeta
  args : List Codec
  hash : Hash
  signature : Option SigValue
  isSigned : Bool
  rawMultiSignature : Option RawSig
deriving DecidableEq

/-- The parameter-rendering widgets referenced by the override map. -/
inductive Component where
  | BalanceParam : Component
deriving DecidableEq

/-- ComponentMap: a per-type widget override table keyed by type name. -/
def ComponentMap := List (String × Component)
deriving DecidableEq

/-- BALANCE_CALLS from src/unnamed/part_000 lines 55-65. -/
def BALANCE_CALLS : List String :=
  [ "balances.forceTransfer", "balances.forceUnreserve", "balances.setBalance", "balances.transfer", "balances.transferKeepAlive",
    "bounties.proposeBounty", "bounties.proposeCurator",
    "convictionVoting.delegate",
    "crowdloan.contribute", "crowdloan.create", "crowdloan.edit",
    "democracy.delegate", "democracy.propose",
    "nominationPools.bondExtra", "nominationPools.join", "nominationPools.unbond",
    "staking.bond", "staking.bondExtra", "staking.rebond", "staking.unbond",
    "treasury.proposeSpend", "treasury.spend",
    "vesting.forceVestedTransfer", "vesting.vestedTransfer" ]

/-- BALANCE_OVERRIDE from src/unnamed/part_000 lines 67-69. -/
def BALANCE_OVERRIDE : ComponentMap :=
  [("Compact<u128>", Component.BalanceParam)]

/-- isExtrinsic from src/unnamed/part_000 lines 71-73: truthiness of the
signature accessor. -/
def isExtrinsic (value : CallValue) : Bool :=
  value.signature.isSome

/-- getRawSignature from src/unnamed/part_000 lines 76-79: the
optional-chained access to the internal raw multi-signature envelope. -/
def getRawSignature (value : CallValue) : Option RawSig :=
  value.rawMultiSignature

/-- Modelled from the spec: getTypeDef is the external structural-type
derivation from the types library; modelled as the structural wrapper of
the type string (the code only ever passes the result on). -/
structure TypeDef where
  typeName : String
deriving DecidableEq

def getTypeDef (s : String) : TypeDef := ⟨s⟩

/-- Param from src/unnamed/part_000 lines 36-39. -/
structure Param where
  name : String
  type : TypeDef
deriving DecidableEq

/-- Value from src/unnamed/part_000 lines 41-44. -/
structure Value where
  isValid : Bool
  value : Codec
deriving DecidableEq

/-- Extracted from src/unnamed/part_000 lines 46-53. null and undefined
are both Option.none. -/
structure Extracted where
  hash : Option String
  overrides : Option ComponentMap
  params : List Param
  signature : Option String
  signatureType : Option String
  values : List Value
deriving DecidableEq

/-- extractState from src/unnamed/part_000 lines 81-109. The callName
guard mirrors the JavaScript truthiness test (an empty string is falsy). -/
def extractState (value : CallValue) (withHash withSignature : Bool)
    (callName : Option String) : Extracted :=
  let overrides : Option ComponentMap :=
    match callName with
    | none => none
    | some s => if !s.isEmpty && BALANCE_CALLS.contains s then some BALANCE_OVERRIDE else none
  let params : List Param :=
    value.metaArgs.map (fun a => { name := a.name.toString, type := getTypeDef a.type.toString })
  let values : List Value :=
    value.args.map (fun v => { isValid := true, value := v })
  let hash : Option String :=
    if withHash then some value.hash.toHex else none
  let sigPair : Option String × Option String :=
    if withSignature && isExtrinsic value && value.isSigned then
      (value.signature.map SigValue.toHex,
       match getRawSignature value with
       | some raw => if raw.isEnum then some raw.enumType else none
       | none => none)
    else (none, none)
  { hash := hash, overrides := overrides, params := params,
    signature := sigPair.1, signatureType := sigPair.2, values := values }

/-- The content a Static row displays: plain text or a FormatBalance. -/
inductive RowContent where
  | text : String → RowContent
  | balance : Int → RowContent
deriving DecidableEq

/-- One Static row of the toplevel section of Call. -/
structure StaticRow where
  label : String
  value : RowContent
  withCopy : Bool
deriving DecidableEq

/-- The props of Call (src/unnamed/part_000 lines 20-34) that reach its
output; label nodes and mortality are modelled as optional strings, the
tip BN as an optional integer. -/
structure CallProps where
  callName : Option String
  labelHash : Option String
  labelSignature : Option String
  mortality : Option String
  tip : Option Int
  value : CallValue
  withHash : Bool
  withSignature : Bool
deriving DecidableEq

/-- The observable output of Call: the derived structure handed to Params
and the four optional Static rows of the toplevel section. -/
structure CallRender where
  extracted : Extracted
  sigRow : Option StaticRow
  hashRow : Option StaticRow
  mortalityRow : Option StaticRow
  tipRow : Option StaticRow
deriving DecidableEq

/-- The signature-row label: labelSignature when supplied, otherwise the
translated interpolation of the signature type (line 135). -/
def sigLabel (labelSignature : Option String) (signatureType : Option String) : String :=
  match labelSignature with
  | some l => l
  | none =>
    t "signature " ++ (match signatureType with
      | some ty => "(" ++ ty ++ ")"
      | none => "")

/-- Call from src/unnamed/part_000 lines 111-165, in its settled state:
the effect has run, so the extracted state is extractState of the four
declared dependencies; the toplevel rows follow the truthiness guards of
lines 132-161 (a string is truthy when non-empty, tip?.gtn(0) is the
strictly-positive test). -/
def renderCall (p : CallProps) : CallRender :=
  let ex := extractState p.value p.withHash p.withSignature p.callName
  { extracted := ex
    sigRow :=
      match ex.signature with
      | some s =>
        if s.isEmpty then none
        else some { label := sigLabel p.labelSignature ex.signatureType,
                    value := RowContent.text s, withCopy := true }
      | none => none
    hashRow :=
      match ex.hash with
      | some h =>
        if h.isEmpty then none
        else some { label := (p.labelHash.getD (t "extrinsic hash")),
                    value := RowContent.text h, withCopy := true }
      | none => none
    mortalityRow :=
      match p.mortality with
      | some m =>
        if m.isEmpty then none
        else some { label := t "lifetime", value := RowContent.text m, withCopy := false }
      | none => none
    tipRow :=
      match p.tip with
      | some tv =>
        if 0 < tv then
          some { label := t "tip", value := RowContent.balance tv, withCopy := false }
        else none
      | none => none }

/-- A member record (page-ranked types): account identifier and rank. -/
structure Member where
  accountId : String
  rank : Nat
deriving DecidableEq

/-- One rendered Member row: its React key and the member it shows. -/
structure MemberRow where
  key : String
  value : Member
deriving DecidableEq

/-- The props Members passes to the external Table. -/
structure TableProps where
  empty : Option String
  header : List (String × String)
  rows : List MemberRow
deriving DecidableEq

/-- Members from src/packages/page-ranked/src/Members.tsx lines 18-39.
The empty prop is the JavaScript value of the conjunction
(members && translated message): supplied exactly when members is defined
(an empty array is truthy); the children are the mapped Member rows,
keyed by accountId, only when members is defined. -/
def membersView (members : Option (List Member)) : TableProps :=
  { empty :=
      match members with
      | none => none
      | some _ => some (t "No members found")
    header := [(t "members", "start"), (t "rank", "number")]
    rows :=
      match members with
      | none => []
      | some ms => ms.map (fun a => { key := a.accountId, value := a }) }

/-- Modelled from the spec: the external Table renders its empty-state
slot only when it has zero row children and the slot was supplied. -/
def tableDisplaysEmpty (p : TableProps) : Option String :=
  if p.rows.isEmpty then p.empty else none

/-! Concrete sample values used by the witnesses. -/

def sampleArg : ArgMeta := { name := ⟨"value"⟩, type := ⟨"Compact<u128>"⟩ }

def sampleHash : Hash := ⟨"0x1234"⟩

/-- A plain unsigned call declaring one compact argument. -/
def sampleCall : CallValue :=
  { metaArgs := [sampleArg], args := [⟨"42"⟩], hash := sampleHash,
    signature := none, isSigned := false, rawMultiSignature := none }

/-- A call whose arguments contain no compact type at all. -/
def sampleCallNoCompact : CallValue :=
  { metaArgs := [{ name := ⟨"who"⟩, type := ⟨"AccountId"⟩ }], args := [⟨"alice"⟩],
    hash := sampleHash, signature := none, isSigned := false, rawMultiSignature := none }

/-- A signed extrinsic whose raw envelope is an Enum tagged Sr25519. -/
def sampleSigned : CallValue :=
  { metaArgs := [sampleArg], args := [⟨"42"⟩], hash := sampleHash,
    signature := some ⟨"0x9a"⟩, isSigned := true,
    rawMultiSignature := some { isEnum := true, enumType := "Sr25519" } }

/-- An unsigned extrinsic that nevertheless has a truthy signature accessor. -/
def sampleUnsignedExt : CallValue :=
  { metaArgs := [sampleArg], args := [⟨"42"⟩], hash := sampleHash,
    signature := some ⟨"0x00"⟩, isSigned := false, rawMultiSignature := none }

def sampleProps : CallProps :=
  { callName := none, labelHash := none, labelSignature := none,
    mortality := none, tip := some 5, value := sampleCall,
    withHash := false, withSignature := false }

/-- The same identifying inputs as sampleProps, different cosmetic inputs. -/
def samplePropsB : CallProps :=
  { callName := none, labelHash := some "my hash", labelSignature := some "my sig",
    mortality := some "mortal, valid from 1 to 2", tip := none, value := sampleCall,
    withHash := false, withSignature := false }

def sampleMember : Member := { accountId := "5FHneW46", rank := 3 }

end PolkadotApps

namespace PolkadotApps

/-! Helper lemmas shared by several claim theorems. -/

/-- The overrides field of extractState at a present call name. -/
theorem extractState_overrides_some (v : CallValue) (wh ws : Bool) (s : String) :
    (extractState v wh ws (some s)).overrides =
      if !s.isEmpty && BALANCE_CALLS.contains s then some BALANCE_OVERRIDE else none :=
  rfl

/-- The overrides field of extractState at an absent call name. -/
theorem extractState_overrides_none_name (v : CallValue) (wh ws : Bool) :
    (extractState v wh ws none).overrides = none :=
  rfl

/-- Every entry of the allow-list is a non-empty string. -/
theorem mem_BALANCE_CALLS_not_isEmpty (s : String) (h : s ∈ BALANCE_CALLS) :
    s.isEmpty = false := by
  rcases Bool.eq_false_or_eq_true s.isEmpty with hx | hx
  · exfalso
    rw [(String.isEmpty_iff s).mp hx] at h
    simp [BALANCE_CALLS] at h
  · exact hx

/-- Membership in the allow-list as seen by the Boolean contains test. -/
theorem BALANCE_CALLS_contains_iff (s : String) :
    BALANCE_CALLS.contains s = true ↔ s ∈ BALANCE_CALLS := by
  simp [List.contains]

/-- C1: for every call whose dotted name is in the allow-list and which
declares a compact large-unsigned-integer argument, the override map of
extractState contains an entry for Compact u128; for every call whose
name is absent or not in the allow-list, the override map is absent,
regardless of the argument types of the call. -/
theorem extractState_overrides_allowlist (v : CallValue) (wh ws : Bool) :
    (∀ s, s ∈ BALANCE_CALLS →
      (∃ a ∈ v.metaArgs, a.type.toString = "Compact<u128>") →
      ∃ m, (extractState v wh ws (some s)).overrides = some m ∧
        m.lookup "Compact<u128>" = some Component.BalanceParam) ∧
    ((extractState v wh ws none).overrides = none) ∧
    (∀ s, s ∉ BALANCE_CALLS → (extractState v wh ws (some s)).overrides = none) := by
  refine ⟨fun s hs _ => ?_, rfl, fun s hs => ?_⟩
  · refine ⟨BALANCE_OVERRIDE, ?_, rfl⟩
    have hcond : (!s.isEmpty && BALANCE_CALLS.contains s) = true := by
      rw [mem_BALANCE_CALLS_not_isEmpty s hs, (BALANCE_CALLS_contains_iff s).mpr hs]
      rfl
    rw [extractState_overrides_some, if_pos hcond]
  · have hc : BALANCE_CALLS.contains s = false := by
      rcases Bool.eq_false_or_eq_true (BALANCE_CALLS.contains s) with hx | hx
      · exact absurd ((BALANCE_CALLS_contains_iff s).mp hx) hs
      · exact hx
    have hcond : ¬((!s.isEmpty && BALANCE_CALLS.contains s) = true) := by
      rw [hc, Bool.and_false]
      exact Bool.false_ne_true
    rw [extractState_overrides_some, if_neg hcond]

theorem extractState_overrides_allowlist_witness :
    (∃ m, (extractState sampleCall true true (some "balances.transfer")).overrides = some m ∧
      m.lookup "Compact<u128>" = some Component.BalanceParam) ∧
    (extractState sampleCall true true (some "system.remark")).overrides = none :=
  ⟨(extractState_overrides_allowlist sampleCall true true).1 "balances.transfer"
      (by decide) ⟨sampleArg, by simp [sampleCall], rfl⟩,
   (extractState_overrides_allowlist sampleCall true true).2.2 "system.remark" (by decide)⟩

/-- C10: the presence of the override map is decided solely by allow-list
membership of the call name: the overrides field never depends on the
call value or the inclusion flags, every allow-listed name yields the
fixed BALANCE_OVERRIDE map even when the call declares no compact
argument, and the field is always either absent or that one constant. -/
theorem extractState_overrides_membership_only (v w : CallValue) (wh ws wh2 ws2 : Bool) :
    (∀ cn, (extractState v wh ws cn).overrides = (extractState w wh2 ws2 cn).overrides) ∧
    (∀ s, s ∈ BALANCE_CALLS → (extractState v wh ws (some s)).overrides = some BALANCE_OVERRIDE) ∧
    (∀ cn, (extractState v wh ws cn).overrides = none ∨
      (extractState v wh ws cn).overrides = some BALANCE_OVERRIDE) := by
  refine ⟨fun cn => ?_, fun s hs => ?_, fun cn => ?_⟩
  · rcases cn with _ | s
    · rfl
    · rfl
  · have hcond : (!s.isEmpty && BALANCE_CALLS.contains s) = true := by
      rw [mem_BALANCE_CALLS_not_isEmpty s hs, (BALANCE_CALLS_contains_iff s).mpr hs]
      rfl
    rw [extractState_overrides_some, if_pos hcond]
  · rcases cn with _ | s
    · exact Or.inl rfl
    · rw [extractState_overrides_some]
      by_cases hb : (!s.isEmpty && BALANCE_CALLS.contains s) = true
      · rw [if_pos hb]
        exact Or.inr rfl
      · rw [if_neg hb]
        exact Or.inl rfl

theorem extractState_overrides_membership_only_witness :
    (extractState sampleCallNoCompact true true (some "staking.bond")).overrides =
      some BALANCE_OVERRIDE :=
  (extractState_overrides_membership_only sampleCallNoCompact sampleCall true true false
    false).2.1 "staking.bond" (by decide)

/-- The signature pair of extractState when the guard holds. -/
theorem extractState_sig_of_signed (v : CallValue) (cn : Option String) (wh : Bool)
    (hse : isExtrinsic v = true) (hsig : v.isSigned = true) :
    (extractState v wh true cn).signature = v.signature.map SigValue.toHex ∧
    (extractState v wh true cn).signatureType =
      (match getRawSignature v with
       | some raw => if raw.isEnum then some raw.enumType else none
       | none => none) := by
  have hguard : (true && isExtrinsic v && v.isSigned) = true := by
    rw [hse, hsig]
    rfl
  constructor
  · show (if true && isExtrinsic v && v.isSigned then
        (v.signature.map SigValue.toHex,
         match getRawSignature v with
         | some raw => if raw.isEnum then some raw.enumType else none
         | none => none)
      else ((none : Option String), (none : Option String))).1 = _
    rw [if_pos hguard]
  · show (if true && isExtrinsic v && v.isSigned then
        (v.signature.map SigValue.toHex,
         match getRawSignature v with
         | some raw => if raw.isEnum then some raw.enumType else none
         | none => none)
      else ((none : Option String), (none : Option String))).2 = _
    rw [if_pos hguard]

/-- C2: for every signed extrinsic with withSignature true, the signature
field of extractState is the hex encoding of its signature value, and the
signatureType field is the variant tag of the raw multi-signature
envelope when that envelope is an Enum value, and null otherwise. -/
theorem extractState_signed_signature (v : CallValue) (cn : Option String) (wh : Bool)
    (sv : SigValue) (hs : v.signature = some sv) (hsig : v.isSigned = true) :
    (extractState v wh true cn).signature = some sv.toHex ∧
    (v.rawMultiSignature = none → (extractState v wh true cn).signatureType = none) ∧
    (∀ raw, v.rawMultiSignature = some raw → raw.isEnum = true →
      (extractState v wh true cn).signatureType = some raw.enumType) ∧
    (∀ raw, v.rawMultiSignature = some raw → raw.isEnum = false →
      (extractState v wh true cn).signatureType = none) := by
  have hse : isExtrinsic v = true := by
    rw [isExtrinsic, hs]
    rfl
  obtain ⟨h1, h2⟩ := extractState_sig_of_signed v cn wh hse hsig
  refine ⟨?_, ?_, ?_, ?_⟩
  · rw [h1, hs]
    rfl
  · intro hraw
    rw [h2, getRawSignature, hraw]
  · intro raw hraw henum
    rw [h2, getRawSignature, hraw]
    simp only [henum, if_true]
  · intro raw hraw henum
    rw [h2, getRawSignature, hraw]
    simp only [henum]
    rfl

theorem extractState_signed_signature_witness :
    (extractState sampleSigned true true (some "balances.transfer")).signature = some "0x9a" ∧
    (extractState sampleSigned true true (some "balances.transfer")).signatureType = some "Sr25519" := by
  have h := extractState_signed_signature sampleSigned (some "balances.transfer") true ⟨"0x9a"⟩
    rfl rfl
  exact ⟨h.1, h.2.2.1 { isEnum := true, enumType := "Sr25519" } rfl rfl⟩

/-- C4: for every unsigned call or unsigned extrinsic, withSignature true
yields both the signature and the signatureType fields of extractState as
null, even when the container defines a truthy signature accessor: the
isSigned check (together with the isExtrinsic guard) blocks extraction. -/
theorem extractState_unsigned_signature (v : CallValue) (cn : Option String) (wh : Bool)
    (h : v.signature = none ∨ v.isSigned = false) :
    (extractState v wh true cn).signature = none ∧
    (extractState v wh true cn).signatureType = none := by
  have hguard : (true && isExtrinsic v && v.isSigned) = false := by
    rcases h with h | h
    · rw [isExtrinsic, h]
      rfl
    · rw [h, Bool.and_false]
  have hne : ¬((true && isExtrinsic v && v.isSigned) = true) := by
    rw [hguard]
    exact Bool.false_ne_true
  constructor
  · show (if true && isExtrinsic v && v.isSigned then
        (v.signature.map SigValue.toHex,
         match getRawSignature v with
         | some raw => if raw.isEnum then some raw.enumType else none
         | none => none)
      else ((none : Option String), (none : Option String))).1 = none
    rw [if_neg hne]
  · show (if true && isExtrinsic v && v.isSigned then
        (v.signature.map SigValue.toHex,
         match getRawSignature v with
         | some raw => if raw.isEnum then some raw.enumType else none
         | none => none)
      else ((none : Option String), (none : Option String))).2 = none
    rw [if_neg hne]

theorem extractState_unsigned_signature_witness :
    (extractState sampleUnsignedExt true true none).signature = none ∧
    (extractState sampleUnsignedExt true true none).signatureType = none :=
  extractState_unsigned_signature sampleUnsignedExt none true (Or.inr rfl)

/-- C5: the hash field of extractState is null when withHash is false and
is the hex encoding of the content hash of the value when withHash is
true, for every call or extrinsic. -/
theorem extractState_hash_field (v : CallValue) (ws : Bool) (cn : Option String) :
    (extractState v false ws cn).hash = none ∧
    (extractState v true ws cn).hash = some v.hash.toHex :=
  ⟨rfl, rfl⟩

/-- C6: the params list of extractState is drawn positionally from the
metadata argument list of the call (same length; the descriptor at index
i carries the string form of the name and the structural type derived
from the type of metadata argument i), the values list pairs each
position with the corresponding argument value, and every value entry is
marked valid. -/
theorem extractState_params_values (v : CallValue) (wh ws : Bool) (cn : Option String) :
    ((extractState v wh ws cn).params.length = v.metaArgs.length) ∧
    ((extractState v wh ws cn).values.length = v.args.length) ∧
    (∀ i (h1 : i < (extractState v wh ws cn).params.length) (h2 : i < v.metaArgs.length),
      ((extractState v wh ws cn).params.get ⟨i, h1⟩).name =
        (v.metaArgs.get ⟨i, h2⟩).name.toString ∧
      ((extractState v wh ws cn).params.get ⟨i, h1⟩).type =
        getTypeDef (v.metaArgs.get ⟨i, h2⟩).type.toString) ∧
    (∀ i (h1 : i < (extractState v wh ws cn).values.length) (h2 : i < v.args.length),
      ((extractState v wh ws cn).values.get ⟨i, h1⟩).isValid = true ∧
      ((extractState v wh ws cn).values.get ⟨i, h1⟩).value = v.args.get ⟨i, h2⟩) := by
  have hp : (extractState v wh ws cn).params =
      v.metaArgs.map (fun a => { name := a.name.toString, type := getTypeDef a.type.toString }) :=
    rfl
  have hv : (extractState v wh ws cn).values =
      v.args.map (fun w => { isValid := true, value := w }) :=
    rfl
  refine ⟨by rw [hp, List.length_map], by rw [hv, List.length_map], ?_, ?_⟩
  · intro i h1 h2
    constructor
    · simp [hp, List.get_map]
    · simp [hp, List.get_map]
  · intro i h1 h2
    constructor
    · simp [hv, List.get_map]
    · simp [hv, List.get_map]

theorem extractState_params_values_witness :
    (extractState sampleCall false false none).params.length = 1 ∧
    ((extractState sampleCall false false none).params.get
      ⟨0, by decide⟩).name = "value" ∧
    ((extractState sampleCall false false none).values.get
      ⟨0, by decide⟩).isValid = true := by
  have h := extractState_params_values sampleCall false false none
  exact ⟨h.1, (h.2.2.1 0 (by decide) (by decide)).1, (h.2.2.2 0 (by decide) (by decide)).1⟩


/-- C3 counterexample: for the absent member sequence the view supplies
no empty-state message at all (the empty slot of the table is undefined,
so the localized message cannot be rendered), while for a non-empty
sequence the message is supplied; both refute the claim that the message
is supplied exactly when the sequence is absent or empty. -/
theorem membersView_absent_no_message :
    (membersView none).rows = [] ∧
    (membersView none).empty = none ∧
    tableDisplaysEmpty (membersView none) = none ∧
    (membersView (some [sampleMember])).empty = some (t "No members found") :=
  ⟨rfl, rfl, rfl, rfl⟩

/-- C3 (amended): the view renders zero rows when the sequence is absent
or empty; the empty-state message is supplied to the table exactly when
the sequence is present (defined), and it is therefore displayed exactly
for a present-but-empty sequence; for an absent sequence no message is
supplied and none is displayed. -/
theorem membersView_empty_state (members : Option (List Member)) :
    ((membersView members).empty = some (t "No members found") ↔ members.isSome = true) ∧
    (members = none →
      (membersView members).rows = [] ∧ tableDisplaysEmpty (membersView members) = none) ∧
    (∀ ms, members = some ms → ms = [] →
      (membersView members).rows = [] ∧
      tableDisplaysEmpty (membersView members) = some (t "No members found")) := by
  refine ⟨?_, ?_, ?_⟩
  · rcases members with _ | ms
    · constructor
      · intro h
        exact absurd h (by simp [membersView])
      · intro h
        exact absurd h (by simp)
    · simp [membersView]
  · intro h
    subst h
    exact ⟨rfl, rfl⟩
  · intro ms h hnil
    subst h
    subst hnil
    exact ⟨rfl, rfl⟩

theorem membersView_empty_state_witness :
    (membersView (some ([] : List Member))).rows = [] ∧
    tableDisplaysEmpty (membersView (some ([] : List Member))) = some (t "No members found") :=
  (membersView_empty_state (some [])).2.2 [] rfl rfl

/-- C7: for every sequence of member records with distinct account
identifiers, the view renders exactly as many rows as records, in input
order, each row keyed by the account identifier of its member and
carrying that member. -/
theorem membersView_rows_keyed (ms : List Member)
    (hd : (ms.map Member.accountId).Nodup) :
    (membersView (some ms)).rows.length = ms.length ∧
    (∀ i (h1 : i < (membersView (some ms)).rows.length) (h2 : i < ms.length),
      ((membersView (some ms)).rows.get ⟨i, h1⟩).key = (ms.get ⟨i, h2⟩).accountId ∧
      ((membersView (some ms)).rows.get ⟨i, h1⟩).value = ms.get ⟨i, h2⟩) := by
  have hr : (membersView (some ms)).rows =
      ms.map (fun a => { key := a.accountId, value := a }) :=
    rfl
  refine ⟨by rw [hr, List.length_map], ?_⟩
  intro i h1 h2
  constructor
  · simp [hr, List.get_map]
  · simp [hr, List.get_map]

theorem membersView_rows_keyed_witness :
    (membersView (some [sampleMember])).rows.length = 1 ∧
    ((membersView (some [sampleMember])).rows.get ⟨0, by decide⟩).key = "5FHneW46" := by
  have h := membersView_rows_keyed [sampleMember] (by decide)
  exact ⟨h.1, (h.2 0 (by decide) (by decide)).1⟩

/-- C8: the tip row of Call is suppressed when the tip is absent or
zero, and is rendered through the balance formatter exactly when the tip
is strictly positive. -/
theorem renderCall_tipRow (p : CallProps) :
    ((p.tip = none ∨ p.tip = some 0) → (renderCall p).tipRow = none) ∧
    (∀ tv, p.tip = some tv →
      ((renderCall p).tipRow =
          some { label := t "tip", value := RowContent.balance tv, withCopy := false } ↔
        0 < tv)) := by
  have ht : (renderCall p).tipRow =
      (match p.tip with
       | some tv =>
         if 0 < tv then
           some { label := t "tip", value := RowContent.balance tv, withCopy := false }
         else none
       | none => none) :=
    rfl
  constructor
  · intro h
    rcases h with h | h <;> rw [ht, h] <;> rfl
  · intro tv h
    have ht2 : (renderCall p).tipRow =
        if 0 < tv then
          some { label := t "tip", value := RowContent.balance tv, withCopy := false }
        else none := by
      rw [ht, h]
    rw [ht2]
    constructor
    · intro heq
      by_cases hpos : 0 < tv
      · exact hpos
      · rw [if_neg hpos] at heq
        exact absurd heq (by simp)
    · intro hpos
      rw [if_pos hpos]

theorem renderCall_tipRow_witness :
    (renderCall sampleProps).tipRow =
      some { label := t "tip", value := RowContent.balance 5, withCopy := false } :=
  ((renderCall_tipRow sampleProps).2 5 rfl).mpr (by decide)

/-- C9: the derived structure produced by Call (hash, overrides, params,
signature, signatureType, values) depends only on the call name, the
call or extrinsic value, withHash and withSignature: two prop records
agreeing on those four inputs but differing arbitrarily in the cosmetic
inputs (labelHash, labelSignature, mortality, tip) yield an identical
derived structure. -/
theorem renderCall_extracted_depends_only (p q : CallProps)
    (h1 : p.callName = q.callName) (h2 : p.value = q.value)
    (h3 : p.withHash = q.withHash) (h4 : p.withSignature = q.withSignature) :
    (renderCall p).extracted = (renderCall q).extracted := by
  have hp : (renderCall p).extracted =
      extractState p.value p.withHash p.withSignature p.callName :=
    rfl
  have hq : (renderCall q).extracted =
      extractState q.value q.withHash q.withSignature q.callName :=
    rfl
  rw [hp, hq, h1, h2, h3, h4]

theorem renderCall_extracted_depends_only_witness :
    (renderCall sampleProps).extracted = (renderCall samplePropsB).extracted :=
  renderCall_extracted_depends_only sampleProps samplePropsB rfl rfl rfl rfl

end PolkadotApps
